import Mathlib

/-!
Shallow embedding of the core game logic of `src/script.js` (idle tribal
game).  Numbers are modelled by `ℚ` (JavaScript numbers, with the spec's
"± floating tolerance" read as exact rational arithmetic), timestamps in
milliseconds by `ℚ`, and levels / list indices by `ℕ`.  JavaScript code
that can throw a `TypeError` (property access on `undefined`) is modelled
by an `Option` result, with `none` standing for a thrown exception and
`some s` for a normal return with resulting state `s`.  `Math.random()`
results are passed in explicitly as `ℚ` parameters.
-/

/-- Resource kinds of the game: wood, stone and food. -/
inductive Res : Type
  | wood
  | stone
  | food
deriving DecidableEq, Repr

/-- A resource-indexed mapping (used for the resource pool, costs and raid
rewards), mirroring the JS objects `{ wood, stone, food }`. -/
structure Resources : Type where
  wood : ℚ
  stone : ℚ
  food : ℚ
deriving DecidableEq, Repr

/-- Look a `Resources` mapping up at a resource kind. -/
def Resources.get (rs : Resources) : Res → ℚ
  | Res.wood => rs.wood
  | Res.stone => rs.stone
  | Res.food => rs.food

/-- Add an amount to one entry of a `Resources` mapping
(`state.resources[res] += amount`). -/
def Resources.add (rs : Resources) : Res → ℚ → Resources
  | Res.wood, q => { rs with wood := rs.wood + q }
  | Res.stone, q => { rs with stone := rs.stone + q }
  | Res.food, q => { rs with food := rs.food + q }

/-- The four building types of `BUILDING_TYPES`. -/
inductive BType : Type
  | woodcutter
  | quarry
  | farm
  | barracks
deriving DecidableEq, Repr

/-- The `resource` field of a building type definition (`null` for the
barracks becomes `none`). -/
def resourceOf : BType → Option Res
  | BType.woodcutter => some Res.wood
  | BType.quarry => some Res.stone
  | BType.farm => some Res.food
  | BType.barracks => none

/-- The `baseRate` field of a building type definition (per second). -/
def baseRate : BType → ℚ
  | BType.woodcutter => 1
  | BType.quarry => 8/10
  | BType.farm => 5/10
  | BType.barracks => 0

/-- The `baseCost` field of a building type definition. -/
def baseCost : BType → Resources
  | BType.woodcutter => ⟨0, 20, 10⟩
  | BType.quarry => ⟨20, 0, 10⟩
  | BType.farm => ⟨20, 10, 0⟩
  | BType.barracks => ⟨100, 50, 50⟩

/-- The `baseTime` field of a building type definition (seconds). -/
def baseTime : BType → ℚ
  | BType.woodcutter => 5
  | BType.quarry => 5
  | BType.farm => 5
  | BType.barracks => 8

/-- Lookup `BUILDING_TYPES[type]` by its string key; `none` models the JS
`undefined` obtained for an unknown key. -/
def lookupType : String → Option BType
  | "woodcutter" => some BType.woodcutter
  | "quarry" => some BType.quarry
  | "farm" => some BType.farm
  | "barracks" => some BType.barracks
  | _ => none

/-- COST_MULTIPLIER = 1.5 -/
def COST_MULTIPLIER : ℚ := 15/10

/-- TIME_MULTIPLIER = 1.6 -/
def TIME_MULTIPLIER : ℚ := 16/10

/-- TRAIN_COST = { wood: 15, stone: 15, food: 10 } -/
def TRAIN_COST : Resources := ⟨15, 15, 10⟩

/-- BASE_TRAIN_TIME = 5000 ms -/
def BASE_TRAIN_TIME : ℚ := 5000

/-- RAID_COST_TROOPS = 5 -/
def RAID_COST_TROOPS : ℤ := 5

/-- RAID_TIME = 30000 ms -/
def RAID_TIME : ℚ := 30000

/-- Lower ends of `RAID_REWARD_RANGES`. -/
def raidRewardMin : Res → ℚ
  | Res.wood => 20
  | Res.stone => 20
  | Res.food => 10

/-- Upper ends of `RAID_REWARD_RANGES`. -/
def raidRewardMax : Res → ℚ
  | Res.wood => 40
  | Res.stone => 40
  | Res.food => 30

/-- A building instance `{ type, level }` of the `state.buildings` list. -/
structure Building : Type where
  type : BType
  level : ℕ
deriving DecidableEq, Repr

/-- A construction-queue job `{ type, targetIndex, level, startTime, endTime }`. -/
structure QueueJob : Type where
  type : BType
  targetIndex : Option ℕ
  level : ℕ
  startTime : ℚ
  endTime : ℚ
deriving DecidableEq, Repr

/-- A training-queue job `{ startTime, endTime }`. -/
structure TrainingJob : Type where
  startTime : ℚ
  endTime : ℚ
deriving DecidableEq, Repr

/-- A raid-queue job `{ startTime, endTime, reward }`. -/
structure RaidJob : Type where
  startTime : ℚ
  endTime : ℚ
  reward : Resources
deriving DecidableEq, Repr

/-- The game state container (the persisted `state` object). -/
structure GameState : Type where
  resources : Resources
  buildings : List Building
  queue : Option QueueJob
  troops : ℤ
  trainingQueue : Option TrainingJob
  raidQueue : Option RaidJob
  lastUpdate : ℚ
deriving DecidableEq, Repr

/-- `DEFAULT_STATE`, parameterised by the session start time `t0`
(the JS initialises `lastUpdate` with `Date.now()`). -/
def DEFAULT_STATE (t0 : ℚ) : GameState :=
  { resources := ⟨50, 50, 50⟩
    buildings := []
    queue := none
    troops := 0
    trainingQueue := none
    raidQueue := none
    lastUpdate := t0 }

/-- `calculateCost(type, level)`:
`cost[res] = Math.ceil(def.baseCost[res] * COST_MULTIPLIER^(level-1))` for
each of the three resource keys.  Levels are natural numbers and only
values `level ≥ 1` reach this function in the source. -/
def calculateCost (t : BType) (level : ℕ) : Resources :=
  let m : ℚ := COST_MULTIPLIER ^ (level - 1)
  { wood := (⌈(baseCost t).wood * m⌉ : ℤ)
    stone := (⌈(baseCost t).stone * m⌉ : ℤ)
    food := (⌈(baseCost t).food * m⌉ : ℤ) }

/-- `calculateTime(type, level)`:
`Math.ceil(def.baseTime * TIME_MULTIPLIER^(level-1) * 1000)` milliseconds. -/
def calculateTime (t : BType) (level : ℕ) : ℤ :=
  ⌈baseTime t * TIME_MULTIPLIER ^ (level - 1) * 1000⌉

/-- `hasResources(cost)`: every resource key of the cost is covered by the
pool (`Object.keys(cost).every((res) => state.resources[res] >= cost[res])`). -/
def hasResources (rs cost : Resources) : Bool :=
  decide (cost.wood ≤ rs.wood) && decide (cost.stone ≤ rs.stone) &&
    decide (cost.food ≤ rs.food)

/-- `deductResources(cost)`: subtract the cost from every resource entry. -/
def deductResources (rs cost : Resources) : Resources :=
  { wood := rs.wood - cost.wood
    stone := rs.stone - cost.stone
    food := rs.food - cost.food }

/-- Pointwise addition of a reward mapping to the pool
(`state.resources[res] += state.raidQueue.reward[res]` over all keys). -/
def addResources (rs reward : Resources) : Resources :=
  { wood := rs.wood + reward.wood
    stone := rs.stone + reward.stone
    food := rs.food + reward.food }

/-- The per-building body of the `updateResources` loop: skip buildings
with no produced resource or non-positive base rate, otherwise add
`baseRate * level * deltaSeconds` to the produced resource's pool entry. -/
def accrueBuilding (deltaSeconds : ℚ) (rs : Resources) (b : Building) : Resources :=
  match resourceOf b.type with
  | none => rs
  | some r =>
      if baseRate b.type ≤ 0 then rs
      else rs.add r (baseRate b.type * (b.level : ℚ) * deltaSeconds)

/-- `updateResources()` with the current time passed explicitly:
computes `deltaSeconds = (now - state.lastUpdate) / 1000`, returns the
state unchanged when `deltaSeconds ≤ 0`, otherwise accrues production for
every building (in list order) and sets `lastUpdate = now`. -/
def updateResources (s : GameState) (now : ℚ) : GameState :=
  let deltaSeconds : ℚ := (now - s.lastUpdate) / 1000
  if deltaSeconds ≤ 0 then s
  else
    { s with
      resources := s.buildings.foldl (accrueBuilding deltaSeconds) s.resources
      lastUpdate := now }

/-- `checkQueue()`: if a construction job is due (`now >= endTime`),
apply its completion effect (append a new building, or set the target
building's level) and clear the slot.  An upgrade job whose
`targetIndex` is out of bounds makes the JS throw a `TypeError`
(`state.buildings[targetIndex]` is `undefined`), modelled by `none`. -/
def checkQueue (s : GameState) (now : ℚ) : Option GameState :=
  match s.queue with
  | none => some s
  | some q =>
      if q.endTime ≤ now then
        match q.targetIndex with
        | none =>
            some { s with
                   buildings := s.buildings ++ [{ type := q.type, level := q.level }]
                   queue := none }
        | some i =>
            match s.buildings[i]? with
            | none => none
            | some b =>
                some { s with
                       buildings := s.buildings.set i { b with level := q.level }
                       queue := none }
      else some s

/-- `buildNew(type)`: no-op when the construction slot is busy; otherwise
look the type up (an unknown key makes `calculateCost` throw, modelled by
`none`), check affordability of the level-1 cost, and on success deduct
the cost and enqueue the job with duration `calculateTime(type, 1)`. -/
def buildNew (s : GameState) (typeKey : String) (now : ℚ) : Option GameState :=
  if s.queue.isSome then some s
  else
    match lookupType typeKey with
    | none => none
    | some t =>
        let cost := calculateCost t 1
        if hasResources s.resources cost then
          some { s with
                 resources := deductResources s.resources cost
                 queue := some { type := t, targetIndex := none,
                                 level := 1, startTime := now,
                                 endTime := now + (calculateTime t 1 : ℚ) } }
        else some s

/-- `upgradeBuilding(index)`: no-op when the slot is busy; an index outside
the building list makes the JS throw (`building.level` on `undefined`),
modelled by `none`; otherwise check affordability of the next-level cost
and on success deduct it and enqueue the upgrade job. -/
def upgradeBuilding (s : GameState) (index : ℕ) (now : ℚ) : Option GameState :=
  if s.queue.isSome then some s
  else
    match s.buildings[index]? with
    | none => none
    | some b =>
        let nextLevel := b.level + 1
        let cost := calculateCost b.type nextLevel
        if hasResources s.resources cost then
          some { s with
                 resources := deductResources s.resources cost
                 queue := some { type := b.type, targetIndex := some index,
                                 level := nextLevel, startTime := now,
                                 endTime := now + (calculateTime b.type nextLevel : ℚ) } }
        else some s

/-- `getTotalBarracksLevel()`: sum of the levels of all barracks instances
(`filter` + `reduce` in the source). -/
def getTotalBarracksLevel (s : GameState) : ℕ :=
  (s.buildings.filter (fun b => b.type = BType.barracks)).foldl
    (fun sum b => sum + b.level) 0

/-- `calculateTrainingDuration()`:
`Math.max(1000, BASE_TRAIN_TIME / (1 + 0.5 * totalBarracksLevel))`. -/
def calculateTrainingDuration (s : GameState) : ℚ :=
  max 1000 (BASE_TRAIN_TIME / (1 + (5/10 : ℚ) * (getTotalBarracksLevel s : ℚ)))

/-- `trainTroop()`: no-op when the training slot is busy or the train cost
is unaffordable; otherwise deduct `TRAIN_COST` and enqueue a training job
of duration `calculateTrainingDuration()`. -/
def trainTroop (s : GameState) (now : ℚ) : GameState :=
  if s.trainingQueue.isSome then s
  else if hasResources s.resources TRAIN_COST then
    { s with
      resources := deductResources s.resources TRAIN_COST
      trainingQueue := some { startTime := now,
                              endTime := now + calculateTrainingDuration s } }
  else s

/-- `checkTrainingQueue()`: when the training job is due, add one troop and
clear the slot. -/
def checkTrainingQueue (s : GameState) (now : ℚ) : GameState :=
  match s.trainingQueue with
  | none => s
  | some tq =>
      if tq.endTime ≤ now then
        { s with troops := s.troops + 1, trainingQueue := none }
      else s

/-- The reward object rolled at raid launch:
`reward[res] = Math.floor(min + random() * (max - min + 1))`, with the
three `Math.random()` draws passed in as `rand`. -/
def rollReward (rand : Res → ℚ) : Resources :=
  { wood := (⌊raidRewardMin Res.wood +
      rand Res.wood * (raidRewardMax Res.wood - raidRewardMin Res.wood + 1)⌋ : ℤ)
    stone := (⌊raidRewardMin Res.stone +
      rand Res.stone * (raidRewardMax Res.stone - raidRewardMin Res.stone + 1)⌋ : ℤ)
    food := (⌊raidRewardMin Res.food +
      rand Res.food * (raidRewardMax Res.food - raidRewardMin Res.food + 1)⌋ : ℤ) }

/-- `raid()`: no-op when a raid is in progress or fewer than
`RAID_COST_TROOPS` troops are available; otherwise deduct the troops,
roll the reward from the supplied random draws and enqueue the raid job
of duration `RAID_TIME` with the reward stored in the payload. -/
def raid (s : GameState) (now : ℚ) (rand : Res → ℚ) : GameState :=
  if s.raidQueue.isSome then s
  else if s.troops < RAID_COST_TROOPS then s
  else
    { s with
      troops := s.troops - RAID_COST_TROOPS
      raidQueue := some { startTime := now, endTime := now + RAID_TIME,
                          reward := rollReward rand } }

/-- `checkRaidQueue()`: when the raid is due, add every entry of the stored
reward to the resource pool and clear the slot. -/
def checkRaidQueue (s : GameState) (now : ℚ) : GameState :=
  match s.raidQueue with
  | none => s
  | some rq =>
      if rq.endTime ≤ now then
        { s with resources := addResources s.resources rq.reward, raidQueue := none }
      else s

/-! ### Helper lemmas -/

/-- Effect of `Resources.add` on a lookup. -/
lemma Resources.get_add (rs : Resources) (r' r : Res) (q : ℚ) :
    (rs.add r' q).get r = if r = r' then rs.get r + q else rs.get r := by
  cases r' <;> cases r <;> simp [Resources.add, Resources.get]

/-- Two resource mappings agreeing on every lookup are equal. -/
lemma Resources.eq_of_get (a b : Resources) (h : ∀ r, a.get r = b.get r) : a = b := by
  cases a
  cases b
  have hw := h Res.wood
  have hs := h Res.stone
  have hf := h Res.food
  simp only [Resources.get] at hw hs hf
  simp [hw, hs, hf]

/-- The contribution of a single building to one pass of the accrual loop,
as the spec describes it: `baseRate × level × deltaSeconds` for a building
whose type has a produced resource and a positive base rate, `0` otherwise. -/
def accrueTerm (b : Building) (r : Res) (d : ℚ) : ℚ :=
  if resourceOf b.type = some r ∧ 0 < baseRate b.type
  then baseRate b.type * (b.level : ℚ) * d else 0

/-- The total production credited to resource `r` over `d` elapsed seconds,
summed over a building list. -/
def producedSum (bs : List Building) (r : Res) (d : ℚ) : ℚ :=
  (bs.map (fun b => accrueTerm b r d)).sum

lemma accrueBuilding_get (d : ℚ) (rs : Resources) (b : Building) (r : Res) :
    (accrueBuilding d rs b).get r = rs.get r + accrueTerm b r d := by
  obtain ⟨bt, lvl⟩ := b
  cases bt <;> cases r <;>
    norm_num [accrueBuilding, accrueTerm, resourceOf, baseRate, Resources.add,
      Resources.get]
  all_goals exact fun h => Res.noConfusion h

lemma foldl_accrue_get (d : ℚ) (bs : List Building) (rs : Resources) (r : Res) :
    (bs.foldl (accrueBuilding d) rs).get r = rs.get r + producedSum bs r d := by
  induction bs generalizing rs with
  | nil => simp [producedSum]
  | cons b bs ih =>
      rw [List.foldl_cons, ih, accrueBuilding_get]
      simp [producedSum]
      ring

lemma producedSum_nonneg (bs : List Building) (r : Res) (d : ℚ) (hd : 0 ≤ d) :
    0 ≤ producedSum bs r d := by
  refine List.sum_nonneg ?_
  intro x hx
  obtain ⟨b, _, rfl⟩ := List.mem_map.mp hx
  unfold accrueTerm
  split
  · next h =>
      have := h.2
      positivity
  · exact le_refl 0

lemma producedSum_split (bs : List Building) (r : Res) (d1 d2 : ℚ) :
    producedSum bs r d1 + producedSum bs r d2 = producedSum bs r (d1 + d2) := by
  induction bs with
  | nil => simp [producedSum]
  | cons b bs ih =>
      simp only [producedSum, List.map_cons, List.sum_cons] at *
      rw [← ih]
      unfold accrueTerm
      split <;> ring

lemma updateResources_of_nonpos (s : GameState) (now : ℚ)
    (h : (now - s.lastUpdate) / 1000 ≤ 0) : updateResources s now = s := by
  simp [updateResources, h]

lemma updateResources_of_pos (s : GameState) (now : ℚ)
    (h : 0 < (now - s.lastUpdate) / 1000) :
    updateResources s now =
      { s with
        resources :=
          s.buildings.foldl (accrueBuilding ((now - s.lastUpdate) / 1000)) s.resources
        lastUpdate := now } := by
  simp [updateResources, not_le.mpr h]

lemma updateResources_comp (s : GameState) (t1 t2 : ℚ) (h12 : t1 ≤ t2) :
    updateResources (updateResources s t1) t2 = updateResources s t2 := by
  by_cases h1 : (t1 - s.lastUpdate) / 1000 ≤ 0
  · rw [updateResources_of_nonpos s t1 h1]
  · have h1' : 0 < (t1 - s.lastUpdate) / 1000 := lt_of_not_le h1
    rw [updateResources_of_pos s t1 h1']
    by_cases h2 : (t2 - t1) / 1000 ≤ 0
    · have ht : t2 ≤ t1 := by linarith
      have heq : t1 = t2 := le_antisymm h12 ht
      subst heq
      rw [updateResources_of_nonpos _ t1 (by simp),
        updateResources_of_pos s t1 h1']
    · have h2' : 0 < (t2 - t1) / 1000 := lt_of_not_le h2
      have hsum : (t1 - s.lastUpdate) / 1000 + (t2 - t1) / 1000 =
          (t2 - s.lastUpdate) / 1000 := by ring
      have h3 : 0 < (t2 - s.lastUpdate) / 1000 := by
        rw [← hsum]; exact add_pos h1' h2'
      rw [updateResources_of_pos _ t2 h2', updateResources_of_pos s t2 h3]
      have hres : (s.buildings.foldl (accrueBuilding ((t2 - t1) / 1000))
            (s.buildings.foldl (accrueBuilding ((t1 - s.lastUpdate) / 1000))
              s.resources)) =
          s.buildings.foldl (accrueBuilding ((t2 - s.lastUpdate) / 1000))
            s.resources := by
        apply Resources.eq_of_get
        intro r
        rw [foldl_accrue_get, foldl_accrue_get, foldl_accrue_get]
        rw [add_assoc, producedSum_split, hsum]
      dsimp only
      rw [hres]

lemma foldl_add_level (bs : List Building) (a : ℕ) :
    bs.foldl (fun sum b => sum + b.level) a = a + (bs.map Building.level).sum := by
  induction bs generalizing a with
  | nil => simp
  | cons b bs ih => simp [List.foldl_cons, ih, Nat.add_assoc]

lemma barracks_filter_sum (bs : List Building) :
    ((bs.filter fun b => b.type = BType.barracks).map Building.level).sum =
      (bs.map fun b => if b.type = BType.barracks then b.level else 0).sum := by
  induction bs with
  | nil => rfl
  | cons b bs ih =>
      by_cases hb : b.type = BType.barracks
      · simp [List.filter_cons, hb, ih]
      · simp [List.filter_cons, hb, ih]

lemma getTotalBarracksLevel_eq (s : GameState) :
    getTotalBarracksLevel s =
      (s.buildings.map fun b => if b.type = BType.barracks then b.level else 0).sum := by
  unfold getTotalBarracksLevel
  rw [foldl_add_level, Nat.zero_add, barracks_filter_sum]

/-! ### Claim theorems -/

/-- Example state used by witnesses: a single level-2 woodcutter, no queued
jobs, all pools empty, `lastUpdate = 0`. -/
def exState : GameState :=
  { resources := ⟨0, 0, 0⟩
    buildings := [{ type := BType.woodcutter, level := 2 }]
    queue := none
    troops := 0
    trainingQueue := none
    raidQueue := none
    lastUpdate := 0 }

/-- C1: when `(now − lastUpdate)/1000 ≤ 0`, `updateResources` leaves the
whole state (including `lastUpdate`) unchanged; otherwise it sets
`lastUpdate = now` and adds exactly `baseRate × level × deltaSeconds` to the
produced resource's pool entry for every producing building (skipping the
others), so that each pool grows by the summed production; and the total
accrued over an interval is independent of how the interval is split into
ticks: any sequence of intermediate updates at times `≤ t2` followed by an
update at `t2` yields exactly the state of a single update at `t2`. -/
theorem updateResources_accrual (s : GameState) (now t1 t2 : ℚ) (ts : List ℚ) :
    ((now - s.lastUpdate) / 1000 ≤ 0 → updateResources s now = s) ∧
    (0 < (now - s.lastUpdate) / 1000 →
      (updateResources s now).lastUpdate = now ∧
      ∀ r, (updateResources s now).resources.get r =
        s.resources.get r + producedSum s.buildings r ((now - s.lastUpdate) / 1000)) ∧
    (t1 ≤ t2 → updateResources (updateResources s t1) t2 = updateResources s t2) ∧
    ((∀ u ∈ ts, u ≤ t2) →
      updateResources (List.foldl updateResources s ts) t2 = updateResources s t2)
    := by
  refine ⟨fun h => updateResources_of_nonpos s now h, fun h => ?_,
    fun h12 => updateResources_comp s t1 t2 h12, ?_⟩
  · rw [updateResources_of_pos s now h]
    exact ⟨rfl, fun r => by dsimp only; rw [foldl_accrue_get]⟩
  · induction ts generalizing s with
    | nil => intro _; rfl
    | cons u us ih =>
        intro hall
        rw [List.foldl_cons,
          ih (updateResources s u) (fun v hv => hall v (List.mem_cons_of_mem _ hv)),
          updateResources_comp s u t2 (hall u (List.mem_cons_self u us))]

/-- Witness for C1 at the concrete state `exState` and concrete times. -/
theorem updateResources_accrual_witness :
    updateResources exState 0 = exState ∧
    (updateResources exState 3000).resources.get Res.wood =
      exState.resources.get Res.wood +
        producedSum exState.buildings Res.wood ((3000 - exState.lastUpdate) / 1000) ∧
    updateResources (updateResources exState 1000) 3000 = updateResources exState 3000 ∧
    updateResources (List.foldl updateResources exState [1000, 2000]) 3000 =
      updateResources exState 3000 :=
  ⟨(updateResources_accrual exState 0 0 0 []).1 (by norm_num [exState]),
   ((updateResources_accrual exState 3000 0 0 []).2.1 (by norm_num [exState])).2 Res.wood,
   (updateResources_accrual exState 0 1000 3000 []).2.2.1 (by norm_num),
   (updateResources_accrual exState 0 0 3000 [1000, 2000]).2.2.2 (by decide)⟩

/-- C6: the troop-training duration is
`max(1000 ms, 5000 ms / (1 + 0.5 × totalBarracksLevel))` with
`totalBarracksLevel` the sum of the levels of all barracks instances; with
no barracks it is 5000 ms and with total barracks level 2 it is 2500 ms. -/
theorem trainingDuration_formula (s : GameState) :
    calculateTrainingDuration s =
      max 1000 (5000 / (1 + (1/2 : ℚ) *
        (((s.buildings.map fun b =>
          if b.type = BType.barracks then b.level else 0).sum : ℕ) : ℚ))) ∧
    ((∀ b ∈ s.buildings, b.type ≠ BType.barracks) →
      calculateTrainingDuration s = 5000) ∧
    (getTotalBarracksLevel s = 2 → calculateTrainingDuration s = 2500) := by
  refine ⟨?_, ?_, ?_⟩
  · unfold calculateTrainingDuration BASE_TRAIN_TIME
    rw [getTotalBarracksLevel_eq]
    norm_num
  · intro h
    have h0 : getTotalBarracksLevel s = 0 := by
      rw [getTotalBarracksLevel_eq]
      apply List.sum_eq_zero
      intro x hx
      obtain ⟨b, hb, rfl⟩ := List.mem_map.mp hx
      simp [h b hb]
    unfold calculateTrainingDuration BASE_TRAIN_TIME
    rw [h0]
    norm_num
  · intro h2
    unfold calculateTrainingDuration BASE_TRAIN_TIME
    rw [h2]
    norm_num

/-- Witness states for C6: one barracks at level 2. -/
def barracksState : GameState :=
  { DEFAULT_STATE 0 with buildings := [{ type := BType.barracks, level := 2 }] }

/-- Witness for C6: no barracks gives 5000 ms, total barracks level 2 gives
2500 ms. -/
theorem trainingDuration_formula_witness :
    calculateTrainingDuration (DEFAULT_STATE 0) = 5000 ∧
    calculateTrainingDuration barracksState = 2500 :=
  ⟨(trainingDuration_formula (DEFAULT_STATE 0)).2.1
      (by intro b hb; simp [DEFAULT_STATE] at hb),
   (trainingDuration_formula barracksState).2.2 (by decide)⟩

/-- C8: launching a raid with fewer than 5 troops is a no-op: the state,
including the troop count and the (empty or busy) raid slot, is returned
unchanged. -/
theorem raid_insufficient_troops_noop (s : GameState) (now : ℚ) (rand : Res → ℚ)
    (h : s.troops < 5) : raid s now rand = s := by
  by_cases hq : s.raidQueue.isSome
  · simp [raid, hq]
  · simp [raid, hq, RAID_COST_TROOPS, h]

/-- Witness for C8 at the default state, which has 0 troops. -/
theorem raid_insufficient_troops_noop_witness :
    raid (DEFAULT_STATE 0) 0 (fun _ => 0) = DEFAULT_STATE 0 :=
  raid_insufficient_troops_noop (DEFAULT_STATE 0) 0 (fun _ => 0) (by decide)

/-- C10: the raid reconcile step never changes the troop count, the building
list, the construction queue, the training queue or `lastUpdate` (so the 5
troops deducted at launch are never refunded), and when a stored raid is due
it changes the state exactly by adding the stored reward to the resource
pool and clearing the raid slot. -/
theorem checkRaidQueue_frame (s : GameState) (now : ℚ) :
    (checkRaidQueue s now).troops = s.troops ∧
    (checkRaidQueue s now).buildings = s.buildings ∧
    (checkRaidQueue s now).queue = s.queue ∧
    (checkRaidQueue s now).trainingQueue = s.trainingQueue ∧
    (checkRaidQueue s now).lastUpdate = s.lastUpdate ∧
    (∀ rq, s.raidQueue = some rq → rq.endTime ≤ now →
      checkRaidQueue s now =
        { s with resources := addResources s.resources rq.reward,
                 raidQueue := none }) := by
  have h6 : ∀ rq, s.raidQueue = some rq → rq.endTime ≤ now →
      checkRaidQueue s now =
        { s with resources := addResources s.resources rq.reward,
                 raidQueue := none } := by
    intro rq hrq hd
    simp [checkRaidQueue, hrq, hd]
  refine ⟨?_, ?_, ?_, ?_, ?_, h6⟩ <;>
    cases hq : s.raidQueue with
    | none => simp [checkRaidQueue, hq]
    | some rq => by_cases hd : rq.endTime ≤ now <;> simp [checkRaidQueue, hq, hd]

/-- Witness state for C10: a due raid with reward 30/30/20. -/
def raidState : GameState :=
  { DEFAULT_STATE 0 with raidQueue := some ⟨0, 30000, ⟨30, 30, 20⟩⟩ }

/-- Witness for C10: completing the due raid of `raidState` adds exactly the
stored reward and clears the slot. -/
theorem checkRaidQueue_frame_witness :
    checkRaidQueue raidState 30000 =
      { raidState with
        resources := addResources raidState.resources ⟨30, 30, 20⟩
        raidQueue := none } :=
  (checkRaidQueue_frame raidState 30000).2.2.2.2.2 ⟨0, 30000, ⟨30, 30, 20⟩⟩
    rfl (by norm_num)

/-- C3: each of the three reconcile steps is idempotent: running it twice
in sequence at the same `now` produces exactly the same state as running it
once (for the construction queue, whenever the first run returns normally;
a cleared slot makes the second run a no-op). -/
theorem reconcile_idempotent (s : GameState) (now : ℚ) :
    (∀ s', checkQueue s now = some s' → checkQueue s' now = some s') ∧
    checkTrainingQueue (checkTrainingQueue s now) now = checkTrainingQueue s now ∧
    checkRaidQueue (checkRaidQueue s now) now = checkRaidQueue s now := by
  refine ⟨?_, ?_, ?_⟩
  · intro s' h
    cases hq : s.queue with
    | none =>
        simp [checkQueue, hq] at h
        subst h
        simp [checkQueue, hq]
    | some q =>
        by_cases hd : q.endTime ≤ now
        · cases hti : q.targetIndex with
          | none =>
              simp [checkQueue, hq, hd, hti] at h
              subst h
              simp [checkQueue]
          | some i =>
              cases hg : s.buildings[i]? with
              | none => simp [checkQueue, hq, hd, hti, hg] at h
              | some b =>
                  simp [checkQueue, hq, hd, hti, hg] at h
                  subst h
                  simp [checkQueue]
        · simp [checkQueue, hq, hd] at h
          subst h
          simp [checkQueue, hq, hd]
  · cases ht : s.trainingQueue with
    | none => simp [checkTrainingQueue, ht]
    | some tq =>
        by_cases hd : tq.endTime ≤ now
        · simp [checkTrainingQueue, ht, hd]
        · simp [checkTrainingQueue, ht, hd]
  · cases hr : s.raidQueue with
    | none => simp [checkRaidQueue, hr]
    | some rq =>
        by_cases hd : rq.endTime ≤ now
        · simp [checkRaidQueue, hr, hd]
        · simp [checkRaidQueue, hr, hd]

/-- Witness state for C3: a due construction job for a new woodcutter. -/
def queuedState : GameState :=
  { DEFAULT_STATE 0 with
    queue := some { type := BType.woodcutter, targetIndex := none, level := 1,
                    startTime := 0, endTime := 5000 } }

/-- Witness state for C3: `queuedState` after its job has completed. -/
def completedState : GameState :=
  { DEFAULT_STATE 0 with
    buildings := [{ type := BType.woodcutter, level := 1 }]
    queue := none }

/-- Witness for C3: after the due job of `queuedState` completed, a further
reconcile at the same time changes nothing. -/
theorem reconcile_idempotent_witness :
    checkQueue completedState 5000 = some completedState :=
  (reconcile_idempotent queuedState 5000).1 completedState (by decide)

/-- C4: from the default state, `buildNew('woodcutter')` deducts the level-1
cost {wood 0, stone 20, food 10}, leaving {50, 30, 40}, and occupies the
construction queue with `endTime = startTime + 5000 ms`; reconciling at any
time ≥ `endTime` appends the new level-1 woodcutter and clears the slot;
and reconciling a due upgrade job (target index present) instead sets that
building's level to the job's recorded target level. -/
theorem build_woodcutter_scenario (t0 t : ℚ) :
    buildNew (DEFAULT_STATE t0) "woodcutter" t0 =
      some { resources := ⟨50, 30, 40⟩
             buildings := []
             queue := some { type := BType.woodcutter, targetIndex := none,
                             level := 1, startTime := t0, endTime := t0 + 5000 }
             troops := 0
             trainingQueue := none
             raidQueue := none
             lastUpdate := t0 } ∧
    (t0 + 5000 ≤ t →
      checkQueue { resources := ⟨50, 30, 40⟩, buildings := [],
                   queue := some { type := BType.woodcutter, targetIndex := none,
                                   level := 1, startTime := t0,
                                   endTime := t0 + 5000 },
                   troops := 0, trainingQueue := none, raidQueue := none,
                   lastUpdate := t0 } t =
        some { resources := ⟨50, 30, 40⟩,
               buildings := [{ type := BType.woodcutter, level := 1 }],
               queue := none, troops := 0, trainingQueue := none,
               raidQueue := none, lastUpdate := t0 }) ∧
    (∀ s q i b, s.queue = some q → q.targetIndex = some i →
      s.buildings[i]? = some b → q.endTime ≤ t →
      checkQueue s t =
        some { s with buildings := s.buildings.set i { b with level := q.level },
                      queue := none }) := by
  refine ⟨?_, fun ht => ?_, fun s q i b hq hti hg hd => ?_⟩
  · have hc : calculateCost BType.woodcutter 1 = ⟨0, 20, 10⟩ := by
      norm_num [calculateCost, baseCost, COST_MULTIPLIER, Int.ceil_eq_iff]
    have htm : calculateTime BType.woodcutter 1 = 5000 := by
      norm_num [calculateTime, baseTime, TIME_MULTIPLIER, Int.ceil_eq_iff]
    simp [buildNew, DEFAULT_STATE, lookupType, hc, htm, hasResources,
      deductResources]
    norm_num
  · simp [checkQueue, ht]
  · simp [checkQueue, hq, hti, hg, hd]

/-- Witness state for C4's upgrade clause: a due upgrade job targeting the
level-1 farm at index 0. -/
def upgradeTestState : GameState :=
  { resources := ⟨0, 0, 0⟩
    buildings := [{ type := BType.farm, level := 1 }]
    queue := some { type := BType.farm, targetIndex := some 0, level := 2,
                    startTime := 0, endTime := 100 }
    troops := 0
    trainingQueue := none
    raidQueue := none
    lastUpdate := 0 }

/-- Witness for C4 at `t0 = 0`, reconciling at `t = 5000`. -/
theorem build_woodcutter_scenario_witness :
    checkQueue { resources := ⟨50, 30, 40⟩, buildings := [],
                 queue := some { type := BType.woodcutter, targetIndex := none,
                                 level := 1, startTime := 0,
                                 endTime := (0 : ℚ) + 5000 },
                 troops := 0, trainingQueue := none, raidQueue := none,
                 lastUpdate := 0 } 5000 =
      some { resources := ⟨50, 30, 40⟩,
             buildings := [{ type := BType.woodcutter, level := 1 }],
             queue := none, troops := 0, trainingQueue := none,
             raidQueue := none, lastUpdate := 0 } ∧
    checkQueue upgradeTestState 5000 =
      some { upgradeTestState with
             buildings := [{ type := BType.farm, level := 2 }]
             queue := none } :=
  ⟨(build_woodcutter_scenario 0 5000).2.1 (by norm_num),
   (build_woodcutter_scenario 0 5000).2.2 upgradeTestState
     { type := BType.farm, targetIndex := some 0, level := 2,
       startTime := 0, endTime := 100 } 0 { type := BType.farm, level := 1 }
     rfl rfl rfl (by norm_num)⟩

lemma calculateCost_get (t : BType) (L : ℕ) (r : Res) :
    (calculateCost t L).get r =
      ((⌈(baseCost t).get r * COST_MULTIPLIER ^ (L - 1)⌉ : ℤ) : ℚ) := by
  cases r <;> simp [calculateCost, Resources.get]

/-- C2 counterexample: the recurrence
`costAtLevel(type, L+1) == ceil(costAtLevel(type, L) × 1.5)` fails exactly
for the woodcutter's food cost at `L = 3`: level 4 costs
`ceil(10 × 1.5³) = ceil(33.75) = 34` food, while
`ceil(cost(3) × 1.5) = ceil(23 × 1.5) = ceil(34.5) = 35`. -/
theorem calculateCost_recurrence_fails :
    (calculateCost BType.woodcutter 4).food = 34 ∧
    ((⌈(calculateCost BType.woodcutter 3).food * (15/10 : ℚ)⌉ : ℤ) : ℚ) = 35 ∧
    (calculateCost BType.woodcutter 4).food ≠
      ((⌈(calculateCost BType.woodcutter 3).food * (15/10 : ℚ)⌉ : ℤ) : ℚ) := by
  have h3 : (calculateCost BType.woodcutter 3).food = ((23 : ℤ) : ℚ) := by
    norm_num [calculateCost, baseCost, COST_MULTIPLIER]
    exact_mod_cast (by norm_num [Int.ceil_eq_iff] : (⌈(45 : ℚ)/2⌉ : ℤ) = 23)
  have h4 : (calculateCost BType.woodcutter 4).food = ((34 : ℤ) : ℚ) := by
    norm_num [calculateCost, baseCost, COST_MULTIPLIER]
    exact_mod_cast (by norm_num [Int.ceil_eq_iff] : (⌈(135 : ℚ)/4⌉ : ℤ) = 34)
  have h5 : ((⌈(calculateCost BType.woodcutter 3).food * (15/10 : ℚ)⌉ : ℤ) : ℚ)
      = 35 := by
    rw [h3]
    norm_num
    exact_mod_cast (by norm_num [Int.ceil_eq_iff] : (⌈(69 : ℚ)/2⌉ : ℤ) = 35)
  refine ⟨by rw [h4]; norm_num, h5, ?_⟩
  rw [h4, h5]
  norm_num

/-- C2 (amended): `calculateCost` assigns to each resource
`ceil(baseCost[res] × 1.5^(L−1))`, and at level 1 this is exactly the base
cost; the claimed step recurrence holds only up to rounding slack:
`cost(L+1) ≤ ceil(cost(L) × 1.5) ≤ cost(L+1) + 2` (the exact equality
fails, see the counterexample). -/
theorem calculateCost_formula (t : BType) (L : ℕ) (r : Res) (hL : 1 ≤ L) :
    (calculateCost t L).get r =
      ((⌈(baseCost t).get r * (15/10 : ℚ) ^ (L - 1)⌉ : ℤ) : ℚ) ∧
    calculateCost t 1 = baseCost t ∧
    (calculateCost t (L + 1)).get r ≤
      ((⌈(calculateCost t L).get r * (15/10 : ℚ)⌉ : ℤ) : ℚ) ∧
    ((⌈(calculateCost t L).get r * (15/10 : ℚ)⌉ : ℤ) : ℚ) ≤
      (calculateCost t (L + 1)).get r + 2 := by
  have hform : ∀ M : ℕ, (calculateCost t M).get r =
      ((⌈(baseCost t).get r * (15/10 : ℚ) ^ (M - 1)⌉ : ℤ) : ℚ) := by
    intro M
    rw [calculateCost_get]
    norm_num [COST_MULTIPLIER]
  have hone : calculateCost t 1 = baseCost t := by
    cases t <;>
      norm_num [calculateCost, baseCost, COST_MULTIPLIER, Int.ceil_eq_iff]
  have hL1 : L - 1 + 1 = L := Nat.succ_pred_eq_of_pos hL
  have hsucc : (calculateCost t (L + 1)).get r =
      ((⌈((baseCost t).get r * (15/10 : ℚ) ^ (L - 1)) * (15/10 : ℚ)⌉ : ℤ) : ℚ) := by
    rw [hform (L + 1)]
    have : L + 1 - 1 = L - 1 + 1 := by omega
    rw [this, pow_succ, ← mul_assoc]
  have key : ∀ y : ℚ,
      ((⌈y * (15/10 : ℚ)⌉ : ℤ) : ℚ) ≤ ((⌈(⌈y⌉ : ℚ) * (15/10 : ℚ)⌉ : ℤ) : ℚ) ∧
      ((⌈(⌈y⌉ : ℚ) * (15/10 : ℚ)⌉ : ℤ) : ℚ) ≤ ((⌈y * (15/10 : ℚ)⌉ : ℤ) : ℚ) + 2 := by
    intro y
    constructor
    · exact_mod_cast
        Int.ceil_mono (mul_le_mul_of_nonneg_right (Int.le_ceil y) (by norm_num))
    · have h1 : (⌈y⌉ : ℚ) < y + 1 := Int.ceil_lt_add_one y
      have h2 : y * (15/10 : ℚ) ≤ ((⌈y * (15/10 : ℚ)⌉ : ℤ) : ℚ) := Int.le_ceil _
      have h3 : (⌈(⌈y⌉ : ℚ) * (15/10 : ℚ)⌉ : ℤ) ≤ ⌈y * (15/10 : ℚ)⌉ + 2 := by
        apply Int.ceil_le.mpr
        push_cast
        nlinarith
      exact_mod_cast h3
  refine ⟨hform L, hone, ?_, ?_⟩
  · rw [hsucc, hform L]
    exact (key ((baseCost t).get r * (15/10 : ℚ) ^ (L - 1))).1
  · rw [hsucc, hform L]
    exact (key ((baseCost t).get r * (15/10 : ℚ) ^ (L - 1))).2
  
/-- Witness for C2's amended theorem at type woodcutter, level 1, food. -/
theorem calculateCost_formula_witness :
    calculateCost BType.woodcutter 1 = baseCost BType.woodcutter :=
  (calculateCost_formula BType.woodcutter 1 Res.food (by norm_num)).2.1

lemma rollReward_get (rand : Res → ℚ) (r : Res) :
    (rollReward rand).get r =
      ((⌊raidRewardMin r + rand r * (raidRewardMax r - raidRewardMin r + 1)⌋ : ℤ) : ℚ) := by
  cases r <;> simp [rollReward, Resources.get]

lemma floor_sample_bounds (mn mx x : ℚ) (kmn kmx : ℤ)
    (hmn : (kmn : ℚ) = mn) (hmx : (kmx : ℚ) = mx) (hle : mn ≤ mx)
    (hx0 : 0 ≤ x) (hx1 : x < 1) :
    mn ≤ ((⌊mn + x * (mx - mn + 1)⌋ : ℤ) : ℚ) ∧
      ((⌊mn + x * (mx - mn + 1)⌋ : ℤ) : ℚ) ≤ mx := by
  subst hmn
  subst hmx
  constructor
  · have h1 : kmn ≤ ⌊(kmn : ℚ) + x * ((kmx : ℚ) - (kmn : ℚ) + 1)⌋ := by
      apply Int.le_floor.mpr
      have hw : (0 : ℚ) ≤ (kmx : ℚ) - (kmn : ℚ) + 1 := by linarith
      nlinarith
    exact_mod_cast h1
  · have h2 : ⌊(kmn : ℚ) + x * ((kmx : ℚ) - (kmn : ℚ) + 1)⌋ ≤ kmx := by
      have hw : (0 : ℚ) < (kmx : ℚ) - (kmn : ℚ) + 1 := by linarith
      have hlt : (kmn : ℚ) + x * ((kmx : ℚ) - (kmn : ℚ) + 1) < ((kmx + 1 : ℤ) : ℚ) := by
        push_cast
        nlinarith
      exact Int.lt_add_one_iff.mp (Int.floor_lt.mpr hlt)
    exact_mod_cast h2

/-- C5: with at least 5 troops and an empty raid slot, launching a raid
deducts 5 troops immediately and stores in the payload a reward rolled from
the supplied `Math.random()` draws, each entry an integer within the
inclusive range of its resource; accruing resources or reconciling before
`endTime` leaves the stored payload untouched, and completion adds exactly
the stored amounts to the pools. -/
theorem raid_launch_reward (s : GameState) (now t : ℚ) (rand : Res → ℚ)
    (hq : s.raidQueue = none) (ht5 : 5 ≤ s.troops)
    (hrand : ∀ r, 0 ≤ rand r ∧ rand r < 1) :
    (raid s now rand).troops = s.troops - 5 ∧
    (raid s now rand).raidQueue =
      some { startTime := now, endTime := now + 30000, reward := rollReward rand } ∧
    (∀ r, ∃ k : ℤ, (rollReward rand).get r = (k : ℚ) ∧
      raidRewardMin r ≤ (k : ℚ) ∧ (k : ℚ) ≤ raidRewardMax r) ∧
    (updateResources (raid s now rand) t).raidQueue = (raid s now rand).raidQueue ∧
    (t < now + 30000 → checkRaidQueue (raid s now rand) t = raid s now rand) ∧
    (∀ s2 rq, s2.raidQueue = some rq → rq.endTime ≤ t →
      (checkRaidQueue s2 t).resources = addResources s2.resources rq.reward) := by
  have hnl : ¬ s.troops < RAID_COST_TROOPS := by
    unfold RAID_COST_TROOPS
    omega
  have hbusy : ¬ s.raidQueue.isSome := by simp [hq]
  have hrq : raid s now rand =
      { s with troops := s.troops - RAID_COST_TROOPS,
               raidQueue := some { startTime := now, endTime := now + RAID_TIME,
                                   reward := rollReward rand } } := by
    simp [raid, hbusy, hnl]
  refine ⟨?_, ?_, ?_, ?_, ?_, ?_⟩
  · rw [hrq]
    rfl
  · rw [hrq]
    rfl
  · intro r
    refine ⟨⌊raidRewardMin r + rand r * (raidRewardMax r - raidRewardMin r + 1)⌋,
      rollReward_get rand r, ?_⟩
    cases r with
    | wood =>
        exact floor_sample_bounds 20 40 (rand Res.wood) 20 40 (by norm_num)
          (by norm_num) (by norm_num) (hrand Res.wood).1 (hrand Res.wood).2
    | stone =>
        exact floor_sample_bounds 20 40 (rand Res.stone) 20 40 (by norm_num)
          (by norm_num) (by norm_num) (hrand Res.stone).1 (hrand Res.stone).2
    | food =>
        exact floor_sample_bounds 10 30 (rand Res.food) 10 30 (by norm_num)
          (by norm_num) (by norm_num) (hrand Res.food).1 (hrand Res.food).2
  · by_cases hp : (t - (raid s now rand).lastUpdate) / 1000 ≤ 0
    · rw [updateResources_of_nonpos _ _ hp]
    · rw [updateResources_of_pos _ _ (lt_of_not_le hp)]
  · intro htlt
    rw [hrq]
    simp [checkRaidQueue, RAID_TIME, not_le.mpr htlt]
  · intro s2 rq h2 hd
    simp [checkRaidQueue, h2, hd]

/-- Witness state for C5: the default state given 5 troops. -/
def exRaidState : GameState := { DEFAULT_STATE 0 with troops := 5 }

/-- Witness random draws for C5: every draw is 1/2. -/
def halfRand : Res → ℚ := fun _ => 1/2

/-- Witness for C5 at `exRaidState`, with all `Math.random()` draws `1/2`:
launch deducts the troops, the payload survives accrual and an early
reconcile, the rolled wood reward is in range, and a due raid pays out its
stored reward. -/
theorem raid_launch_reward_witness :
    (raid exRaidState 0 halfRand).troops = exRaidState.troops - 5 ∧
    (∃ k : ℤ, (rollReward halfRand).get Res.wood = (k : ℚ) ∧
      raidRewardMin Res.wood ≤ (k : ℚ) ∧ (k : ℚ) ≤ raidRewardMax Res.wood) ∧
    (updateResources (raid exRaidState 0 halfRand) 100).raidQueue =
      (raid exRaidState 0 halfRand).raidQueue ∧
    checkRaidQueue (raid exRaidState 0 halfRand) 100 = raid exRaidState 0 halfRand ∧
    (checkRaidQueue raidState 30000).resources =
      addResources raidState.resources ⟨30, 30, 20⟩ :=
  ⟨(raid_launch_reward exRaidState 0 100 halfRand rfl (by decide)
      (fun r => ⟨by norm_num [halfRand], by norm_num [halfRand]⟩)).1,
   (raid_launch_reward exRaidState 0 100 halfRand rfl (by decide)
      (fun r => ⟨by norm_num [halfRand], by norm_num [halfRand]⟩)).2.2.1 Res.wood,
   (raid_launch_reward exRaidState 0 100 halfRand rfl (by decide)
      (fun r => ⟨by norm_num [halfRand], by norm_num [halfRand]⟩)).2.2.2.1,
   (raid_launch_reward exRaidState 0 100 halfRand rfl (by decide)
      (fun r => ⟨by norm_num [halfRand], by norm_num [halfRand]⟩)).2.2.2.2.1
      (by norm_num),
   (raid_launch_reward exRaidState 0 30000 halfRand rfl (by decide)
      (fun r => ⟨by norm_num [halfRand], by norm_num [halfRand]⟩)).2.2.2.2.2
      raidState ⟨0, 30000, ⟨30, 30, 20⟩⟩ rfl (by norm_num)⟩

/-- C7 counterexample: `buildNew` with the unknown type key "castle" and
`upgradeBuilding` with index 0 on the default (empty) building list both hit
a `TypeError` in the JS (property access on `undefined`) instead of
degrading to a no-op, so not every command is error-free. -/
theorem commands_can_throw :
    buildNew (DEFAULT_STATE 0) "castle" 0 = none ∧
    upgradeBuilding (DEFAULT_STATE 0) 0 0 = none := by
  constructor
  · rfl
  · rfl

/-- C7 (amended): restricted to a known building type and an in-bounds
index, every player command either starts its job or returns normally with
the state unchanged; `trainTroop` and the raid launch never error at all.
`buildNew` with an unknown type and `upgradeBuilding` with an out-of-bounds
index throw (see the counterexample). -/
theorem commands_no_error_on_valid_input (s : GameState) (now : ℚ)
    (key : String) (t : BType) (i : ℕ) (rand : Res → ℚ)
    (hkey : lookupType key = some t) (hi : i < s.buildings.length) :
    (∃ s', buildNew s key now = some s' ∧ (s' = s ∨ s'.queue.isSome)) ∧
    (∃ s', upgradeBuilding s i now = some s' ∧ (s' = s ∨ s'.queue.isSome)) ∧
    (trainTroop s now = s ∨ (trainTroop s now).trainingQueue.isSome) ∧
    (raid s now rand = s ∨ (raid s now rand).raidQueue.isSome) := by
  refine ⟨?_, ?_, ?_, ?_⟩
  · by_cases hb : s.queue.isSome
    · exact ⟨s, by simp [buildNew, hb], Or.inl rfl⟩
    · by_cases hc : hasResources s.resources (calculateCost t 1)
      · refine ⟨{ s with
            resources := deductResources s.resources (calculateCost t 1),
            queue := some { type := t, targetIndex := none, level := 1,
                            startTime := now,
                            endTime := now + (calculateTime t 1 : ℚ) } },
          ?_, Or.inr rfl⟩
        simp [buildNew, hb, hkey, hc]
      · exact ⟨s, by simp [buildNew, hb, hkey, hc], Or.inl rfl⟩
  · obtain ⟨b, hg⟩ : ∃ b, s.buildings[i]? = some b :=
      ⟨s.buildings[i], List.getElem?_eq_getElem hi⟩
    by_cases hb : s.queue.isSome
    · exact ⟨s, by simp [upgradeBuilding, hb], Or.inl rfl⟩
    · by_cases hc : hasResources s.resources (calculateCost b.type (b.level + 1))
      · refine ⟨{ s with
            resources :=
              deductResources s.resources (calculateCost b.type (b.level + 1)),
            queue := some { type := b.type, targetIndex := some i,
                            level := b.level + 1, startTime := now,
                            endTime := now +
                              (calculateTime b.type (b.level + 1) : ℚ) } },
          ?_, Or.inr rfl⟩
        simp [upgradeBuilding, hb, hg, hc]
      · exact ⟨s, by simp [upgradeBuilding, hb, hg, hc], Or.inl rfl⟩
  · by_cases h1 : s.trainingQueue.isSome
    · exact Or.inl (by simp [trainTroop, h1])
    · by_cases h2 : hasResources s.resources TRAIN_COST
      · exact Or.inr (by simp [trainTroop, h1, h2])
      · exact Or.inl (by simp [trainTroop, h1, h2])
  · by_cases h1 : s.raidQueue.isSome
    · exact Or.inl (by simp [raid, h1])
    · by_cases h2 : s.troops < RAID_COST_TROOPS
      · exact Or.inl (by simp [raid, h1, h2])
      · exact Or.inr (by simp [raid, h1, h2])

/-- Witness for C7's amended theorem at `exState` (one woodcutter, index 0
in bounds) with the known key "farm". -/
theorem commands_no_error_witness :
    (∃ s', buildNew exState "farm" 0 = some s' ∧ (s' = exState ∨ s'.queue.isSome)) ∧
    (∃ s', upgradeBuilding exState 0 0 = some s' ∧ (s' = exState ∨ s'.queue.isSome)) ∧
    (trainTroop exState 0 = exState ∨ (trainTroop exState 0).trainingQueue.isSome) ∧
    (raid exState 0 (fun _ => 0) = exState ∨
      (raid exState 0 (fun _ => 0)).raidQueue.isSome) :=
  commands_no_error_on_valid_input exState 0 "farm" BType.farm 0 (fun _ => 0)
    rfl (by decide)

lemma hasResources_iff (rs cost : Resources) :
    hasResources rs cost = true ↔
      cost.wood ≤ rs.wood ∧ cost.stone ≤ rs.stone ∧ cost.food ≤ rs.food := by
  simp [hasResources, and_assoc]

lemma nonneg_deduct (rs cost : Resources) (h : hasResources rs cost = true) :
    0 ≤ (deductResources rs cost).wood ∧ 0 ≤ (deductResources rs cost).stone ∧
      0 ≤ (deductResources rs cost).food := by
  rw [hasResources_iff] at h
  obtain ⟨h1, h2, h3⟩ := h
  refine ⟨?_, ?_, ?_⟩
  · show (0 : ℚ) ≤ rs.wood - cost.wood
    linarith
  · show (0 : ℚ) ≤ rs.stone - cost.stone
    linarith
  · show (0 : ℚ) ≤ rs.food - cost.food
    linarith

lemma rollReward_nonneg (rand : Res → ℚ) (h : ∀ r, 0 ≤ rand r) :
    0 ≤ (rollReward rand).wood ∧ 0 ≤ (rollReward rand).stone ∧
      0 ≤ (rollReward rand).food := by
  have key : ∀ m w x : ℚ, 0 ≤ m → 0 ≤ w → 0 ≤ x → (0 : ℤ) ≤ ⌊m + x * w⌋ := by
    intro m w x hm hw hx
    apply Int.le_floor.mpr
    push_cast
    nlinarith
  refine ⟨?_, ?_, ?_⟩
  · show (0 : ℚ) ≤ ((⌊raidRewardMin Res.wood +
      rand Res.wood * (raidRewardMax Res.wood - raidRewardMin Res.wood + 1)⌋ : ℤ) : ℚ)
    exact_mod_cast key (raidRewardMin Res.wood)
      (raidRewardMax Res.wood - raidRewardMin Res.wood + 1) (rand Res.wood)
      (by norm_num [raidRewardMin]) (by norm_num [raidRewardMax, raidRewardMin])
      (h Res.wood)
  · show (0 : ℚ) ≤ ((⌊raidRewardMin Res.stone +
      rand Res.stone * (raidRewardMax Res.stone - raidRewardMin Res.stone + 1)⌋ : ℤ) : ℚ)
    exact_mod_cast key (raidRewardMin Res.stone)
      (raidRewardMax Res.stone - raidRewardMin Res.stone + 1) (rand Res.stone)
      (by norm_num [raidRewardMin]) (by norm_num [raidRewardMax, raidRewardMin])
      (h Res.stone)
  · show (0 : ℚ) ≤ ((⌊raidRewardMin Res.food +
      rand Res.food * (raidRewardMax Res.food - raidRewardMin Res.food + 1)⌋ : ℤ) : ℚ)
    exact_mod_cast key (raidRewardMin Res.food)
      (raidRewardMax Res.food - raidRewardMin Res.food + 1) (rand Res.food)
      (by norm_num [raidRewardMin]) (by norm_num [raidRewardMax, raidRewardMin])
      (h Res.food)

/-- The strengthened non-negativity invariant: every resource pool entry and
the troop count are non-negative, and so is every entry of a reward stored
in the raid slot. -/
def Nonneg (s : GameState) : Prop :=
  0 ≤ s.resources.wood ∧ 0 ≤ s.resources.stone ∧ 0 ≤ s.resources.food ∧
  0 ≤ s.troops ∧
  ∀ rq, s.raidQueue = some rq →
    0 ≤ rq.reward.wood ∧ 0 ≤ rq.reward.stone ∧ 0 ≤ rq.reward.food

/-- C9 counterexample state: non-negative pools and troops, but a stored
raid reward of −1 wood, due at time 0. -/
def negRewardState : GameState :=
  { resources := ⟨0, 0, 0⟩
    buildings := []
    queue := none
    troops := 0
    trainingQueue := none
    raidQueue := some ⟨0, 0, ⟨-1, 0, 0⟩⟩
    lastUpdate := 0 }

/-- C9 counterexample: `negRewardState` satisfies the claim's stated
precondition (all resource quantities ≥ 0 and troop count ≥ 0), yet the
raid reconcile step drives its wood pool negative, because the stated
precondition says nothing about the stored raid-reward payload. -/
theorem nonneg_not_preserved :
    (0 ≤ negRewardState.resources.wood ∧ 0 ≤ negRewardState.resources.stone ∧
     0 ≤ negRewardState.resources.food ∧ 0 ≤ negRewardState.troops) ∧
    (checkRaidQueue negRewardState 0).resources.wood < 0 := by
  refine ⟨⟨by norm_num [negRewardState], by norm_num [negRewardState],
    by norm_num [negRewardState], by norm_num [negRewardState]⟩, ?_⟩
  norm_num [checkRaidQueue, negRewardState, addResources]

/-- C9 (amended): the non-negativity bounds are preserved by every core
operation once the invariant is strengthened to also require any stored
raid reward to be non-negative (which holds for every reward the game
itself rolls, since the random draws are ≥ 0). -/
theorem nonneg_invariant_preserved (s : GameState) (now : ℚ) (key : String)
    (i : ℕ) (rand : Res → ℚ) (hs : Nonneg s) (hrand : ∀ r, 0 ≤ rand r) :
    Nonneg (updateResources s now) ∧
    (∀ s', buildNew s key now = some s' → Nonneg s') ∧
    (∀ s', upgradeBuilding s i now = some s' → Nonneg s') ∧
    Nonneg (trainTroop s now) ∧
    Nonneg (raid s now rand) ∧
    (∀ s', checkQueue s now = some s' → Nonneg s') ∧
    Nonneg (checkTrainingQueue s now) ∧
    Nonneg (checkRaidQueue s now) := by
  obtain ⟨hw, hst, hf, htr, hraid⟩ := hs
  refine ⟨?_, ?_, ?_, ?_, ?_, ?_, ?_, ?_⟩
  · by_cases hp : (now - s.lastUpdate) / 1000 ≤ 0
    · rw [updateResources_of_nonpos s now hp]
      exact ⟨hw, hst, hf, htr, hraid⟩
    · have hp' := lt_of_not_le hp
      rw [updateResources_of_pos s now hp']
      have hd : 0 ≤ (now - s.lastUpdate) / 1000 := le_of_lt hp'
      refine ⟨?_, ?_, ?_, htr, hraid⟩
      · show (0 : ℚ) ≤ (s.buildings.foldl
          (accrueBuilding ((now - s.lastUpdate) / 1000)) s.resources).get Res.wood
        rw [foldl_accrue_get]
        exact add_nonneg hw (producedSum_nonneg _ _ _ hd)
      · show (0 : ℚ) ≤ (s.buildings.foldl
          (accrueBuilding ((now - s.lastUpdate) / 1000)) s.resources).get Res.stone
        rw [foldl_accrue_get]
        exact add_nonneg hst (producedSum_nonneg _ _ _ hd)
      · show (0 : ℚ) ≤ (s.buildings.foldl
          (accrueBuilding ((now - s.lastUpdate) / 1000)) s.resources).get Res.food
        rw [foldl_accrue_get]
        exact add_nonneg hf (producedSum_nonneg _ _ _ hd)
  · intro s' h'
    by_cases hb : s.queue.isSome
    · simp [buildNew, hb] at h'
      subst h'
      exact ⟨hw, hst, hf, htr, hraid⟩
    · cases hk : lookupType key with
      | none => simp [buildNew, hb, hk] at h'
      | some t0 =>
          by_cases hc : hasResources s.resources (calculateCost t0 1)
          · simp [buildNew, hb, hk, hc] at h'
            subst h'
            obtain ⟨d1, d2, d3⟩ := nonneg_deduct s.resources (calculateCost t0 1) hc
            exact ⟨d1, d2, d3, htr, hraid⟩
          · simp [buildNew, hb, hk, hc] at h'
            subst h'
            exact ⟨hw, hst, hf, htr, hraid⟩
  · intro s' h'
    by_cases hb : s.queue.isSome
    · simp [upgradeBuilding, hb] at h'
      subst h'
      exact ⟨hw, hst, hf, htr, hraid⟩
    · cases hg : s.buildings[i]? with
      | none => simp [upgradeBuilding, hb, hg] at h'
      | some b =>
          by_cases hc : hasResources s.resources (calculateCost b.type (b.level + 1))
          · simp [upgradeBuilding, hb, hg, hc] at h'
            subst h'
            obtain ⟨d1, d2, d3⟩ :=
              nonneg_deduct s.resources (calculateCost b.type (b.level + 1)) hc
            exact ⟨d1, d2, d3, htr, hraid⟩
          · simp [upgradeBuilding, hb, hg, hc] at h'
            subst h'
            exact ⟨hw, hst, hf, htr, hraid⟩
  · by_cases h1 : s.trainingQueue.isSome
    · have hE : trainTroop s now = s := by simp [trainTroop, h1]
      rw [hE]
      exact ⟨hw, hst, hf, htr, hraid⟩
    · by_cases h2 : hasResources s.resources TRAIN_COST
      · have hE : trainTroop s now =
            { s with resources := deductResources s.resources TRAIN_COST,
                     trainingQueue := some ⟨now, now + calculateTrainingDuration s⟩ } := by
          simp [trainTroop, h1, h2]
        rw [hE]
        obtain ⟨d1, d2, d3⟩ := nonneg_deduct s.resources TRAIN_COST h2
        exact ⟨d1, d2, d3, htr, hraid⟩
      · have hE : trainTroop s now = s := by simp [trainTroop, h1, h2]
        rw [hE]
        exact ⟨hw, hst, hf, htr, hraid⟩
  · by_cases h1 : s.raidQueue.isSome
    · have hE : raid s now rand = s := by simp [raid, h1]
      rw [hE]
      exact ⟨hw, hst, hf, htr, hraid⟩
    · by_cases h2 : s.troops < RAID_COST_TROOPS
      · have hE : raid s now rand = s := by simp [raid, h1, h2]
        rw [hE]
        exact ⟨hw, hst, hf, htr, hraid⟩
      · have hE : raid s now rand =
            { s with troops := s.troops - RAID_COST_TROOPS,
                     raidQueue := some ⟨now, now + RAID_TIME, rollReward rand⟩ } := by
          simp [raid, h1, h2]
        rw [hE]
        obtain ⟨r1, r2, r3⟩ := rollReward_nonneg rand hrand
        refine ⟨hw, hst, hf, ?_, ?_⟩
        · show (0 : ℤ) ≤ s.troops - RAID_COST_TROOPS
          unfold RAID_COST_TROOPS at h2 ⊢
          omega
        · intro rq hrq
          have hrq' : (⟨now, now + RAID_TIME, rollReward rand⟩ : RaidJob) = rq := by
            injection hrq
          subst hrq'
          exact ⟨r1, r2, r3⟩
  · intro s' h'
    cases hq : s.queue with
    | none =>
        simp [checkQueue, hq] at h'
        subst h'
        exact ⟨hw, hst, hf, htr, hraid⟩
    | some q =>
        by_cases hd : q.endTime ≤ now
        · cases hti : q.targetIndex with
          | none =>
              simp [checkQueue, hq, hd, hti] at h'
              subst h'
              exact ⟨hw, hst, hf, htr, hraid⟩
          | some j =>
              cases hg : s.buildings[j]? with
              | none => simp [checkQueue, hq, hd, hti, hg] at h'
              | some b =>
                  simp [checkQueue, hq, hd, hti, hg] at h'
                  subst h'
                  exact ⟨hw, hst, hf, htr, hraid⟩
        · simp [checkQueue, hq, hd] at h'
          subst h'
          exact ⟨hw, hst, hf, htr, hraid⟩
  · cases ht : s.trainingQueue with
    | none =>
        have hE : checkTrainingQueue s now = s := by simp [checkTrainingQueue, ht]
        rw [hE]
        exact ⟨hw, hst, hf, htr, hraid⟩
    | some tq =>
        by_cases hd : tq.endTime ≤ now
        · have hE : checkTrainingQueue s now =
              { s with troops := s.troops + 1, trainingQueue := none } := by
            simp [checkTrainingQueue, ht, hd]
          rw [hE]
          refine ⟨hw, hst, hf, ?_, hraid⟩
          show (0 : ℤ) ≤ s.troops + 1
          omega
        · have hE : checkTrainingQueue s now = s := by
            simp [checkTrainingQueue, ht, hd]
          rw [hE]
          exact ⟨hw, hst, hf, htr, hraid⟩
  · cases hr : s.raidQueue with
    | none =>
        have hE : checkRaidQueue s now = s := by simp [checkRaidQueue, hr]
        rw [hE]
        exact ⟨hw, hst, hf, htr, hraid⟩
    | some rq =>
        obtain ⟨q1, q2, q3⟩ := hraid rq hr
        by_cases hd : rq.endTime ≤ now
        · have hE : checkRaidQueue s now =
              { s with resources := addResources s.resources rq.reward,
                       raidQueue := none } := by
            simp [checkRaidQueue, hr, hd]
          rw [hE]
          refine ⟨?_, ?_, ?_, htr, ?_⟩
          · show (0 : ℚ) ≤ s.resources.wood + rq.reward.wood
            linarith
          · show (0 : ℚ) ≤ s.resources.stone + rq.reward.stone
            linarith
          · show (0 : ℚ) ≤ s.resources.food + rq.reward.food
            linarith
          · intro rq' hrq'
            exact Option.noConfusion hrq'
        · have hE : checkRaidQueue s now = s := by simp [checkRaidQueue, hr, hd]
          rw [hE]
          exact ⟨hw, hst, hf, htr, hraid⟩

/-- Witness for C9's amended theorem: accrual from the default state and a
raid launch with 5 troops both preserve the invariant. -/
theorem nonneg_invariant_preserved_witness :
    Nonneg (updateResources (DEFAULT_STATE 0) 1000) ∧
    Nonneg (raid exRaidState 1000 (fun _ => 0)) :=
  ⟨(nonneg_invariant_preserved (DEFAULT_STATE 0) 1000 "farm" 0 (fun _ => 0)
      ⟨by norm_num [DEFAULT_STATE], by norm_num [DEFAULT_STATE],
       by norm_num [DEFAULT_STATE], by norm_num [DEFAULT_STATE],
       fun rq h => by simp [DEFAULT_STATE] at h⟩
      (fun r => le_refl 0)).1,
   (nonneg_invariant_preserved exRaidState 1000 "farm" 0 (fun _ => 0)
      ⟨by norm_num [exRaidState, DEFAULT_STATE], by norm_num [exRaidState, DEFAULT_STATE],
       by norm_num [exRaidState, DEFAULT_STATE], by norm_num [exRaidState, DEFAULT_STATE],
       fun rq h => by simp [exRaidState, DEFAULT_STATE] at h⟩
      (fun r => le_refl 0)).2.2.2.2.1⟩
